import Mathlib

/-!
Verification development for the `narrativelog` REST service.

This file gives a shallow embedding of the service's core logic, translated
from the Python source:

* `src/narrativelog/routers/normalize_tags.py` — tag validation/lowercasing;
* `src/narrativelog/routers/add_message.py`    — message creation;
* `src/narrativelog/routers/get_message.py`    — single message lookup;
* `src/narrativelog/routers/edit_message.py`   — copy-on-write edit;
* `src/narrativelog/routers/delete_message.py` — soft delete;
* `src/narrativelog/routers/find_messages.py`  — filter/sort/paginate query;
* `src/narrativelog/create_tables.py`          — schema (generated `is_valid`).

Modelling conventions:

* UUIDs are modelled as `String`; TAI timestamps and time intervals as `Int`
  (only ordering and equality of dates matter to the embedded logic).
* The SQL store is a pair of row lists (`message`, `jira_fields`).  The
  generated column `is_valid` (`sa.Computed "date_invalidated is null"`) is
  enforced by the embedded store itself: every row constructed or updated
  goes through `computeValid`, exactly as PostgreSQL recomputes a generated
  column on INSERT/UPDATE; routers never assign it.
* SQL conditions are three-valued (`Option Bool`): comparisons, array
  overlap (`&&`) and jsonb containment (`@>`) on NULL yield NULL, `NOT NULL`
  is NULL, and a WHERE clause keeps a row only when the condition is TRUE.
* `sqlalchemy.sql.or_()` applied to an empty argument list compiles to the
  constant FALSE (SQLAlchemy >= 1.4, which this code requires for its async
  engine, renders a deprecated empty `or_()` as `false`).
* `json.loads` is an external collaborator: query parameters carrying JSON
  arrive as `Except String Json`, where `.error` models a
  `json.JSONDecodeError` (re-raised by the router as HTTP 400).
-/

namespace Narrativelog

/-! ### Generic list/string helpers -/

/-- Insert into a list sorted by `le` (used to model Python's `sorted`). -/
def insertLe (le : α → α → Bool) (a : α) : List α → List α
  | [] => [a]
  | b :: l => if le a b then a :: b :: l else b :: insertLe le a l

/-- Insertion sort by a boolean `le` relation. -/
def sortLe (le : α → α → Bool) : List α → List α
  | [] => []
  | a :: l => insertLe le a (sortLe le l)

/-- String order used by Python's `sorted` on `str` (code-point lexicographic). -/
def strLeb (a b : String) : Bool := decide (a ≤ b)

/-- Python `sorted` on a list of strings. -/
def sortStrings (l : List String) : List String := sortLe strLeb l

/-- Python `str.lower` restricted to the ASCII data the service stores
(valid tags consist of ASCII letters, digits and underscores). -/
def strLower (s : String) : String := ⟨s.data.map Char.toLower⟩

/-- Non-empty intersection of two string lists: PostgreSQL array `&&`. -/
def listOverlap (a b : List String) : Bool := a.any fun x => b.contains x

/-- Sublist (contiguous) membership on characters. -/
def charsContain (l pat : List Char) : Bool :=
  match l with
  | [] => pat.isEmpty
  | _ :: t => pat.isPrefixOf l || charsContain t pat

/-- SQL `LIKE` with a plain pattern: substring containment on strings. -/
def strContainsSub (s pat : String) : Bool := charsContain s.data pat.data

/-! ### SQL three-valued logic -/

/-- Three-valued SQL NOT. -/
def sqlNot : Option Bool → Option Bool := Option.map (fun b => !b)

/-- Three-valued SQL OR over a list of conditions.  An empty list models
SQLAlchemy's empty `or_()`, which compiles to the constant FALSE. -/
def sqlOrList (l : List (Option Bool)) : Option Bool :=
  if l.any (fun c => c == some true) then some true
  else if l.any (fun c => c == none) then none
  else some false

/-! ### JSON values and jsonb containment -/

/-- JSON values (the shape stored in the `components_json` column and parsed
from the `components_path` / `exclude_components_path` query parameters). -/
inductive Json where
  | null : Json
  | bool (b : Bool) : Json
  | num (n : Int) : Json
  | str (s : String) : Json
  | arr (elts : List Json) : Json
  | obj (fields : List (String × Json)) : Json
deriving Repr

mutual

/-- Structural equality of JSON values. -/
def Json.beq : Json → Json → Bool
  | .null, .null => true
  | .bool a, .bool b => a == b
  | .num a, .num b => a == b
  | .str a, .str b => a == b
  | .arr a, .arr b => Json.beqList a b
  | .obj a, .obj b => Json.beqFields a b
  | _, _ => false

/-- Equality of JSON arrays. -/
def Json.beqList : List Json → List Json → Bool
  | [], [] => true
  | a :: as_, b :: bs => Json.beq a b && Json.beqList as_ bs
  | _, _ => false

/-- Equality of JSON object field lists. -/
def Json.beqFields : List (String × Json) → List (String × Json) → Bool
  | [], [] => true
  | (ka, va) :: as_, (kb, vb) :: bs =>
      ka == kb && Json.beq va vb && Json.beqFields as_ bs
  | _, _ => false

end

instance : BEq Json := ⟨Json.beq⟩

/-- Is this JSON value a scalar (not an array or object)? -/
def Json.isScalar : Json → Bool
  | .arr _ => false
  | .obj _ => false
  | _ => true

mutual

/-- PostgreSQL jsonb containment below the top level: objects contain objects
field-wise, arrays contain arrays element-wise, scalars contain equal
scalars.  (The top-level array-contains-scalar exception is in
`jsonbContains`.) -/
def Json.containsRec : Json → Json → Bool
  | .obj ka, .obj kb => Json.containsFields ka kb
  | .arr la, .arr lb => Json.containsElems la lb
  | a, b => if a.isScalar && b.isScalar then Json.beq a b else false

/-- Every needle field is contained in the haystack object. -/
def Json.containsFields (ka : List (String × Json)) :
    List (String × Json) → Bool
  | [] => true
  | (k, v) :: rest =>
      (match ka.find? (fun p => p.1 == k) with
        | some p => Json.containsRec p.2 v
        | none => false)
      && Json.containsFields ka rest

/-- Every needle element is contained in some haystack element. -/
def Json.containsElems (la : List Json) : List Json → Bool
  | [] => true
  | e :: rest => la.any (fun x => Json.containsRec x e) && Json.containsElems la rest

end

/-- PostgreSQL jsonb `@>` containment, including the top-level special case
that an array contains a scalar equal to one of its elements. -/
def jsonbContains (a b : Json) : Bool :=
  match a, b with
  | .arr la, b => if b.isScalar then la.any (fun x => Json.beq x b) else Json.containsRec a b
  | a, b => Json.containsRec a b

/-! ### Tag normalization (`normalize_tags.py`) -/

/-- Core of the regex `[a-zA-Z][a-zA-Z0-9_]+` matched against a whole
character list. -/
def validTagCore : List Char → Bool
  | [] => false
  | c :: rest => c.isAlpha && !rest.isEmpty && rest.all fun d => d.isAlphanum || d == '_'

/-- Python `re.match` of `^[a-zA-Z][a-zA-Z0-9_]+$` against a tag: the
anchored pattern matches the whole string, or the whole string minus a
single trailing newline (Python's `$` also matches just before a final
newline). -/
def validTag (s : String) : Bool :=
  validTagCore s.data
    || (s.data.getLast? == some '\n' && validTagCore s.data.dropLast)

/-- Embedding of `normalize_tags`: if any tag fails the regex, fail with the
sorted list of offending tags (HTTP 400); otherwise lowercase all tags,
keeping the original order. -/
def normalizeTags (tags : List String) : Except (List String) (List String) :=
  let badTags := tags.filter fun tag => !validTag tag
  if badTags.isEmpty then .ok (tags.map strLower)
  else .error (sortStrings badTags)

/-! ### Data model (`create_tables.py` plus the columns used by the routers) -/

/-- A row of the `message` table.  `is_valid` is the generated column
`sa.Computed ("date_invalidated is null")`; it is stored but only ever
written by the store operations below, never by a router. -/
structure MessageRow where
  id : String
  site_id : String
  message_text : String
  level : Int
  tags : List String
  urls : List String
  time_lost : Int
  date_begin : Option Int
  user_id : String
  user_agent : String
  is_human : Bool
  is_valid : Bool
  date_added : Int
  date_invalidated : Option Int
  parent_id : Option String
  systems : Option (List String)
  subsystems : Option (List String)
  cscs : Option (List String)
  date_end : Option Int
  category : Option String
  time_lost_type : Option String
  jira_fields_id : Option String
deriving Repr, DecidableEq

/-- A row of the `jira_fields` table (with the `components_json` column
added by migration `49ef39173f83`). -/
structure JiraRow where
  id : String
  components : Option (List String)
  primary_software_components : Option (List String)
  primary_hardware_components : Option (List String)
  components_json : Option Json
  message_id : Option String
deriving Repr

/-- The relational store: the `message` and `jira_fields` tables. -/
structure DB where
  messages : List MessageRow
  jira : List JiraRow
deriving Repr

/-- The empty database. -/
def emptyDB : DB := ⟨[], []⟩

/-- Recompute the generated column `is_valid` from `date_invalidated`,
exactly as PostgreSQL does on every INSERT and UPDATE of the row. -/
def computeValid (r : MessageRow) : MessageRow :=
  { r with is_valid := r.date_invalidated.isNone }

/-- INSERT a message row (the generated column is recomputed by the store;
whatever the caller put in `is_valid` is ignored). -/
def DB.insertMessage (db : DB) (r : MessageRow) : DB :=
  { db with messages := db.messages ++ [computeValid r] }

/-- INSERT a jira_fields row. -/
def DB.insertJira (db : DB) (j : JiraRow) : DB :=
  { db with jira := db.jira ++ [j] }

/-- UPDATE `message SET date_invalidated = f(date_invalidated) WHERE id = id`;
the generated `is_valid` is recomputed on each updated row. -/
def DB.updateDateInvalidated (db : DB) (id : String)
    (f : Option Int → Option Int) : DB :=
  { db with
    messages := db.messages.map fun r =>
      if r.id == id then computeValid { r with date_invalidated := f r.date_invalidated }
      else r }

/-- Process-wide shared state (`shared_state.py`): the configured SITE_ID. -/
structure ServerState where
  site_id : String
deriving Repr, DecidableEq

/-- Error outcomes an endpoint can produce. -/
inductive ApiError where
  | badRequest (detail : List String) : ApiError
  | notFound : ApiError
  | serverError : ApiError
deriving Repr, DecidableEq

/-! ### `add_message.py` -/

/-- Body fields of `POST /messages` (required fields plain, optional fields
with their defaults resolved by FastAPI before the handler runs). -/
structure AddFields where
  message_text : String
  level : Int
  category : Option String := none
  time_lost_type : Option String := none
  tags : List String := []
  systems : Option (List String) := none
  subsystems : Option (List String) := none
  cscs : Option (List String) := none
  components : Option (List String) := none
  primary_software_components : Option (List String) := none
  primary_hardware_components : Option (List String) := none
  components_json : Option Json := none
  urls : List String := []
  time_lost : Int := 0
  date_begin : Option Int := none
  date_end : Option Int := none
  user_id : String
  user_agent : String
  is_human : Bool
deriving Repr

/-- Embedding of `add_message`.  `newMessageId` and `newJiraId` model the
UUIDs generated for the inserted rows and `now` the current TAI time (the
timezone check on `date_begin`/`date_end` is outside the model: dates are
already offset-free integers here).  A `jira_fields` row is inserted only
when at least one of the four taxonomy fields was supplied; the message
row's `jira_fields_id` is never set by this endpoint (as in the source). -/
def addMessage (state : ServerState) (f : AddFields)
    (newMessageId newJiraId : String) (now : Int) (db : DB) :
    Except ApiError (MessageRow × DB) :=
  match normalizeTags f.tags with
  | .error bad => .error (.badRequest bad)
  | .ok tags =>
  let row : MessageRow :=
    { id := newMessageId
      site_id := state.site_id
      message_text := f.message_text
      level := f.level
      tags := tags
      urls := f.urls
      time_lost := f.time_lost
      date_begin := f.date_begin
      date_end := f.date_end
      user_id := f.user_id
      user_agent := f.user_agent
      is_human := f.is_human
      is_valid := true
      date_added := now
      date_invalidated := none
      parent_id := none
      systems := f.systems
      subsystems := f.subsystems
      cscs := f.cscs
      category := f.category
      time_lost_type := f.time_lost_type
      jira_fields_id := none }
  let db := db.insertMessage row
  let db :=
    if f.components.isSome || f.primary_software_components.isSome
        || f.primary_hardware_components.isSome || f.components_json.isSome then
      db.insertJira
        { id := newJiraId
          components := f.components
          primary_software_components := f.primary_software_components
          primary_hardware_components := f.primary_hardware_components
          components_json := f.components_json
          message_id := some newMessageId }
    else db
  .ok (computeValid row, db)

/-! ### `get_message.py` -/

/-- Embedding of `get_message`: `SELECT` from `message` INNER-joined with
`jira_fields` (the source's `.join(jira_fields_table)` has no
`isouter=True`, unlike every other router) `WHERE message.id = id`; the
join condition is the foreign key `jira_fields.message_id = message.id`.
No joined row means HTTP 404. -/
def getMessage (id : String) (db : DB) :
    Except ApiError (MessageRow × JiraRow) :=
  match db.messages.find? (fun r => r.id == id) with
  | none => .error .notFound
  | some m =>
    match db.jira.find? (fun j => j.message_id == some m.id) with
    | none => .error .notFound
    | some j => .ok (m, j)

/-! ### `edit_message.py` -/

/-- Body fields of `PATCH /messages/{id}`: every field optional; absent
fields arrive as `None` and are not applied. -/
structure EditFields where
  message_text : Option String := none
  level : Option Int := none
  tags : Option (List String) := none
  systems : Option (List String) := none
  subsystems : Option (List String) := none
  cscs : Option (List String) := none
  components : Option (List String) := none
  primary_software_components : Option (List String) := none
  primary_hardware_components : Option (List String) := none
  urls : Option (List String) := none
  time_lost : Option Int := none
  date_begin : Option Int := none
  site_id : Option String := none
  user_id : Option String := none
  user_agent : Option String := none
  is_human : Option Bool := none
deriving Repr

/-- The empty PATCH body. -/
def emptyEdit : EditFields := {}

/-- Embedding of `edit_message`.  Reads the parent row (404 when absent) and
its jira_fields row via the parent's `jira_fields_id` (when that lookup
yields no row the Python code dereferences `None` — an unhandled
`AttributeError`, i.e. HTTP 500).  Builds the child jira row and child
message row by copying the parent and overlaying the supplied fields, then
forces `site_id` to the server's configured SITE_ID, stamps `date_added`,
links `parent_id`, points `jira_fields_id` at the fresh jira copy, and
leaves `date_invalidated` unset (the source deletes `id`, `is_valid` and
`date_invalidated` from the copied dict before the INSERT).  Finally the
parent's `date_invalidated` is set to `now`, unconditionally. -/
def editMessage (state : ServerState) (id : String) (p : EditFields)
    (newMessageId newJiraId : String) (now : Int) (db : DB) :
    Except ApiError (MessageRow × JiraRow × DB) :=
  match (match p.tags with
    | none => Except.ok none
    | some ts => ((normalizeTags ts).mapError ApiError.badRequest).map some) with
  | .error e => .error e
  | .ok tags =>
  match db.messages.find? (fun r => r.id == id) with
  | none => .error .notFound
  | some parent =>
    let parentJira : Option JiraRow :=
      match parent.jira_fields_id with
      | none => none
      | some jid => db.jira.find? (fun j => j.id == jid)
    match parentJira with
    | none => .error .serverError
    | some pj =>
      let newJira : JiraRow :=
        { id := newJiraId
          components := (p.components.map some).getD pj.components
          primary_software_components :=
            (p.primary_software_components.map some).getD pj.primary_software_components
          primary_hardware_components :=
            (p.primary_hardware_components.map some).getD pj.primary_hardware_components
          components_json := pj.components_json
          message_id := pj.message_id }
      let child : MessageRow :=
        { id := newMessageId
          site_id := state.site_id
          message_text := p.message_text.getD parent.message_text
          level := p.level.getD parent.level
          tags := tags.getD parent.tags
          urls := p.urls.getD parent.urls
          time_lost := p.time_lost.getD parent.time_lost
          date_begin := (p.date_begin.map some).getD parent.date_begin
          user_id := p.user_id.getD parent.user_id
          user_agent := p.user_agent.getD parent.user_agent
          is_human := p.is_human.getD parent.is_human
          is_valid := true
          date_added := now
          date_invalidated := none
          parent_id := some id
          systems := (p.systems.map some).getD parent.systems
          subsystems := (p.subsystems.map some).getD parent.subsystems
          cscs := (p.cscs.map some).getD parent.cscs
          date_end := parent.date_end
          category := parent.category
          time_lost_type := parent.time_lost_type
          jira_fields_id := some newJiraId }
      let db := db.insertJira newJira
      let db := db.insertMessage child
      let db := db.updateDateInvalidated id (fun _ => some now)
      .ok (computeValid child, newJira, db)

/-! ### `delete_message.py` -/

/-- Embedding of `delete_message`: one UPDATE setting
`date_invalidated = coalesce(date_invalidated, now)` on every row with the
given id; HTTP 404 exactly when the UPDATE matched no row (`rowcount == 0`),
so an already-invalidated row still succeeds. -/
def deleteMessage (id : String) (now : Int) (db : DB) : Except ApiError DB :=
  let rowcount := (db.messages.filter fun r => r.id == id).length
  let db := db.updateDateInvalidated id (fun old => some (old.getD now))
  if rowcount == 0 then .error .notFound else .ok db

/-! ### `find_messages.py` -/

/-- Tri-state query values (`TriState` in the source). -/
inductive TriState where
  | either : TriState
  | tru : TriState
  | fls : TriState
deriving Repr, DecidableEq

/-- Field names of the pydantic `Message` model, in declaration order
(`Message.schema()["properties"]`). -/
def messageFieldNames : List String :=
  ["id", "site_id", "message_text", "level", "tags", "urls", "time_lost",
   "date_begin", "user_id", "user_agent", "is_human", "is_valid",
   "date_added", "date_invalidated", "parent_id", "systems", "subsystems",
   "cscs", "date_end", "components", "primary_software_components",
   "primary_hardware_components", "category", "time_lost_type",
   "components_json"]

/-- `MESSAGE_ORDER_BY_VALUES`: every `Message` field name, plus the same
names with a leading `-`. -/
def MESSAGE_ORDER_BY_VALUES : List String :=
  messageFieldNames.flatMap fun f => [f, "-" ++ f]

/-- Columns of the `message` table (`message_table.columns`); the four
taxonomy fields live only in `jira_fields`, so looking them up here raises
`KeyError`. -/
def messageColumnNames : List String :=
  ["id", "site_id", "message_text", "level", "tags", "urls", "time_lost",
   "date_begin", "user_id", "user_agent", "is_human", "is_valid",
   "date_added", "date_invalidated", "parent_id", "systems", "subsystems",
   "cscs", "date_end", "category", "time_lost_type", "jira_fields_id"]

/-- Resolve one `order_by` item to a (column, ascending) sort key; a name
that is not a `message` table column raises `KeyError` (HTTP 500).  The
source tests `item.startswith("-")` and strips with `item[1:]`; both are
modelled on the character list. -/
def resolveOrderItem (item : String) : Except ApiError (String × Bool) :=
  let pair :=
    if item.data.head? == some '-' then ((⟨item.data.drop 1⟩ : String), false)
    else (item, true)
  if messageColumnNames.contains pair.1 then .ok pair else .error .serverError

/-- Keep-first deduplication of a string list, modelling the passage of
`order_by` through Python's `set` before the error detail is built. -/
def dedupStr (seen : List String) : List String → List String
  | [] => []
  | x :: t =>
    if seen.contains x then dedupStr seen t
    else x :: dedupStr (x :: seen) t

/-- Resolve a whole `order_by` list, stopping at the first failure (the
source's `for` loop raises on the first bad column lookup). -/
def resolveAll : List String → Except ApiError (List (String × Bool))
  | [] => .ok []
  | x :: t =>
    match resolveOrderItem x with
    | .error e => .error e
    | .ok y =>
      match resolveAll t with
      | .error e => .error e
      | .ok ys => .ok (y :: ys)

/-- Embedding of the `order_by` processing in `find_messages`: default to
`["id"]`; reject unknown names with HTTP 400 (sorted, deduplicated detail);
append `"id"` when neither `"id"` nor `"-id"` occurs; then resolve every
item against the `message` table's columns. -/
def orderKeys : Option (List String) → Except ApiError (List (String × Bool))
  | none => resolveAll ["id"]
  | some l =>
    let bad := dedupStr [] (l.filter fun x => !MESSAGE_ORDER_BY_VALUES.contains x)
    if !bad.isEmpty then .error (.badRequest (sortStrings bad))
    else
      resolveAll (if l.contains "id" || l.contains "-id" then l else l ++ ["id"])

/-- Comparison on `Int` columns. -/
def cmpInt (a b : Int) : Ordering :=
  if a = b then .eq else if a < b then .lt else .gt

/-- Comparison on string columns. -/
def cmpStr (a b : String) : Ordering :=
  if a = b then .eq else if a < b then .lt else .gt

/-- Comparison on boolean columns (`false < true`). -/
def cmpBool (a b : Bool) : Ordering :=
  if a == b then .eq else if a == false then .lt else .gt

/-- PostgreSQL array comparison: element-wise, with a shorter prefix first. -/
def cmpListStr : List String → List String → Ordering
  | [], [] => .eq
  | [], _ :: _ => .lt
  | _ :: _, [] => .gt
  | a :: as_, b :: bs =>
    match cmpStr a b with
    | .eq => cmpListStr as_ bs
    | o => o

/-- Comparison on nullable columns; PostgreSQL sorts NULLS LAST for an
ascending key (descending keys swap the whole ordering). -/
def cmpOpt (cmp : α → α → Ordering) : Option α → Option α → Ordering
  | none, none => .eq
  | none, some _ => .gt
  | some _, none => .lt
  | some a, some b => cmp a b

/-- Compare two message rows on one named column. -/
def cmpCol (name : String) (a b : MessageRow) : Ordering :=
  match name with
  | "id" => cmpStr a.id b.id
  | "site_id" => cmpStr a.site_id b.site_id
  | "message_text" => cmpStr a.message_text b.message_text
  | "level" => cmpInt a.level b.level
  | "tags" => cmpListStr a.tags b.tags
  | "urls" => cmpListStr a.urls b.urls
  | "time_lost" => cmpInt a.time_lost b.time_lost
  | "date_begin" => cmpOpt cmpInt a.date_begin b.date_begin
  | "user_id" => cmpStr a.user_id b.user_id
  | "user_agent" => cmpStr a.user_agent b.user_agent
  | "is_human" => cmpBool a.is_human b.is_human
  | "is_valid" => cmpBool a.is_valid b.is_valid
  | "date_added" => cmpInt a.date_added b.date_added
  | "date_invalidated" => cmpOpt cmpInt a.date_invalidated b.date_invalidated
  | "parent_id" => cmpOpt cmpStr a.parent_id b.parent_id
  | "systems" => cmpOpt cmpListStr a.systems b.systems
  | "subsystems" => cmpOpt cmpListStr a.subsystems b.subsystems
  | "cscs" => cmpOpt cmpListStr a.cscs b.cscs
  | "date_end" => cmpOpt cmpInt a.date_end b.date_end
  | "category" => cmpOpt cmpStr a.category b.category
  | "time_lost_type" => cmpOpt cmpStr a.time_lost_type b.time_lost_type
  | "jira_fields_id" => cmpOpt cmpStr a.jira_fields_id b.jira_fields_id
  | _ => .eq

/-- Compare two rows on one sort key (column name, ascending?). -/
def cmpKey (k : String × Bool) (a b : MessageRow) : Ordering :=
  let o := cmpCol k.1 a b
  if k.2 then o else o.swap

/-- Lexicographic comparison along the resolved `ORDER BY` key list. -/
def cmpKeys : List (String × Bool) → MessageRow → MessageRow → Ordering
  | [], _, _ => .eq
  | k :: ks, a, b =>
    match cmpKey k a b with
    | .eq => cmpKeys ks a b
    | o => o

/-- Boolean `le` on joined rows induced by the `ORDER BY` keys. -/
def rowLe (keys : List (String × Bool)) (a b : MessageRow × Option JiraRow) :
    Bool :=
  cmpKeys keys a.1 b.1 != Ordering.gt

/-! #### WHERE-clause conditions -/

/-- A parameter contributes its condition only when it was supplied
(the loop's `if value is None: continue`). -/
def piece (o : Option α) (f : α → Option Bool) : List (Option Bool) :=
  match o with
  | none => []
  | some v => [f v]

/-- Tri-state parameters contribute an equality condition unless `either`. -/
def triPiece (t : TriState) (col : Bool) : List (Option Bool) :=
  match t with
  | .either => []
  | .tru => [some (col == true)]
  | .fls => [some (col == false)]

/-- SQL `column >= value` on a NOT NULL integer column. -/
def sqlGeInt (v col : Int) : Option Bool := some (decide (v ≤ col))

/-- SQL `column < value` on a NOT NULL integer column. -/
def sqlLtInt (v col : Int) : Option Bool := some (decide (col < v))

/-- SQL `column >= value` on a nullable column (NULL compares to NULL). -/
def sqlGeOpt (v : Int) (col : Option Int) : Option Bool :=
  col.map fun d => decide (v ≤ d)

/-- SQL `column < value` on a nullable column (NULL compares to NULL). -/
def sqlLtOpt (v : Int) (col : Option Int) : Option Bool :=
  col.map fun d => decide (d < v)

/-- SQL `column IS NOT NULL` / `IS NULL` (never NULL itself). -/
def sqlHas (b : Bool) (colIsSome : Bool) : Option Bool :=
  some (if b then colIsSome else !colIsSome)

/-- PostgreSQL `&&` array overlap on a NOT NULL array column. -/
def sqlOverlap (v col : List String) : Option Bool := some (listOverlap col v)

/-- PostgreSQL `&&` array overlap on a nullable array column. -/
def sqlOverlapOpt (v : List String) (col : Option (List String)) :
    Option Bool :=
  col.map fun a => listOverlap a v

/-- SQL `column IN (v...)` on a string column. -/
def sqlInList (v : List String) (col : String) : Option Bool :=
  some (v.contains col)

/-- SQL `column LIKE '%v%'` (substring) on a string column. -/
def sqlLikeSub (v col : String) : Option Bool := some (strContainsSub col v)

/-- jsonb `column @> spec` on the nullable `components_json` column. -/
def sqlJsonbContains (spec : Json) (col : Option Json) : Option Bool :=
  col.map fun c => jsonbContains c spec

/-- The per-key/per-element containment conditions compiled from a parsed
`components_path` object: keys whose value is not a list, or is an empty
list, are skipped; every element of a non-empty list contributes a
containment test of the single-key object holding the one-element array. -/
def pathConditions (pairs : List (String × Json)) (col : Option Json) :
    List (Option Bool) :=
  pairs.flatMap fun kv =>
    match kv.2 with
    | Json.arr elts =>
      if elts.isEmpty then []
      else elts.map fun e => sqlJsonbContains (Json.obj [(kv.1, Json.arr [e])]) col
    | _ => []

/-- Evaluate a JSON-carrying query parameter: absent → no filter; a
`json.JSONDecodeError` → HTTP 400; a parsed object → its key/value pairs.
A parsed non-object crashes the Python iteration (`TypeError` → HTTP 500),
except the empty string and the empty array, which iterate zero times. -/
def evalPathParam (name : String) :
    Option (Except String Json) →
      Except ApiError (Option (List (String × Json)))
  | none => .ok none
  | some (.error _) => .error (.badRequest ["Invalid JSON in " ++ name])
  | some (.ok js) =>
    match js with
    | .obj kvs => .ok (some kvs)
    | .arr [] => .ok (some [])
    | .str "" => .ok (some [])
    | _ => .error .serverError

/-- Query parameters of `GET /messages` (after FastAPI shaping), with the
source's defaults.  The two `*_components_path` parameters carry the
outcome of `json.loads` on the raw string.  The four `categories` /
`time_lost_types` parameters exist in the source signature but are absent
from `select_arg_names`, so they never filter and are omitted here. -/
structure Query where
  site_ids : Option (List String) := none
  message_text : Option String := none
  min_level : Option Int := none
  max_level : Option Int := none
  user_ids : Option (List String) := none
  user_agents : Option (List String) := none
  systems : Option (List String) := none
  exclude_systems : Option (List String) := none
  subsystems : Option (List String) := none
  exclude_subsystems : Option (List String) := none
  cscs : Option (List String) := none
  exclude_cscs : Option (List String) := none
  components : Option (List String) := none
  exclude_components : Option (List String) := none
  primary_software_components : Option (List String) := none
  exclude_primary_software_components : Option (List String) := none
  primary_hardware_components : Option (List String) := none
  exclude_primary_hardware_components : Option (List String) := none
  components_path : Option (Except String Json) := none
  exclude_components_path : Option (Except String Json) := none
  tags : Option (List String) := none
  exclude_tags : Option (List String) := none
  urls : Option (List String) := none
  min_time_lost : Option Int := none
  max_time_lost : Option Int := none
  has_date_begin : Option Bool := none
  min_date_begin : Option Int := none
  max_date_begin : Option Int := none
  has_date_end : Option Bool := none
  min_date_end : Option Int := none
  max_date_end : Option Int := none
  is_human : TriState := .either
  is_valid : TriState := .tru
  min_date_added : Option Int := none
  max_date_added : Option Int := none
  has_date_invalidated : Option Bool := none
  min_date_invalidated : Option Int := none
  max_date_invalidated : Option Int := none
  has_parent_id : Option Bool := none
  order_by : Option (List String) := none
  offset : Nat := 0
  limit : Nat := 50

/-- The all-defaults query (every filter absent, `is_valid=true`). -/
def defaultQuery : Query := {}

/-- The WHERE-clause conditions contributed by a query for one joined row,
in the source's `select_arg_names` order.  `ntags`/`nexcl` are the
normalized `tags`/`exclude_tags` and `cp`/`ecp` the parsed path
parameters, all computed before the query executes. -/
def conds (q : Query) (ntags nexcl : Option (List String))
    (cp ecp : Option (List (String × Json)))
    (m : MessageRow) (j : Option JiraRow) : List (Option Bool) :=
  piece q.site_ids (fun v => sqlInList v m.site_id)
    ++ piece q.message_text (fun v => sqlLikeSub v m.message_text)
    ++ piece q.min_level (fun v => sqlGeInt v m.level)
    ++ piece q.max_level (fun v => sqlLtInt v m.level)
    ++ piece q.user_ids (fun v => sqlInList v m.user_id)
    ++ piece q.user_agents (fun v => sqlInList v m.user_agent)
    ++ piece q.systems (fun v => sqlOverlapOpt v m.systems)
    ++ piece q.exclude_systems (fun v => sqlNot (sqlOverlapOpt v m.systems))
    ++ piece q.subsystems (fun v => sqlOverlapOpt v m.subsystems)
    ++ piece q.exclude_subsystems (fun v => sqlNot (sqlOverlapOpt v m.subsystems))
    ++ piece q.cscs (fun v => sqlOverlapOpt v m.cscs)
    ++ piece q.exclude_cscs (fun v => sqlNot (sqlOverlapOpt v m.cscs))
    ++ piece q.components (fun v => sqlOverlapOpt v (j.bind JiraRow.components))
    ++ piece q.exclude_components
        (fun v => sqlNot (sqlOverlapOpt v (j.bind JiraRow.components)))
    ++ piece q.primary_software_components
        (fun v => sqlOverlapOpt v (j.bind JiraRow.primary_software_components))
    ++ piece q.exclude_primary_software_components
        (fun v => sqlNot (sqlOverlapOpt v (j.bind JiraRow.primary_software_components)))
    ++ piece q.primary_hardware_components
        (fun v => sqlOverlapOpt v (j.bind JiraRow.primary_hardware_components))
    ++ piece q.exclude_primary_hardware_components
        (fun v => sqlNot (sqlOverlapOpt v (j.bind JiraRow.primary_hardware_components)))
    ++ piece cp
        (fun pairs => sqlOrList (pathConditions pairs (j.bind JiraRow.components_json)))
    ++ piece ecp
        (fun pairs =>
          sqlNot (sqlOrList (pathConditions pairs (j.bind JiraRow.components_json))))
    ++ piece ntags (fun v => sqlOverlap v m.tags)
    ++ piece nexcl (fun v => sqlNot (sqlOverlap v m.tags))
    ++ piece q.urls (fun v => sqlOverlap v m.urls)
    ++ piece q.min_time_lost (fun v => sqlGeInt v m.time_lost)
    ++ piece q.max_time_lost (fun v => sqlLtInt v m.time_lost)
    ++ piece q.has_date_begin (fun b => sqlHas b m.date_begin.isSome)
    ++ piece q.min_date_begin (fun v => sqlGeOpt v m.date_begin)
    ++ piece q.max_date_begin (fun v => sqlLtOpt v m.date_begin)
    ++ piece q.has_date_end (fun b => sqlHas b m.date_end.isSome)
    ++ piece q.min_date_end (fun v => sqlGeOpt v m.date_end)
    ++ piece q.max_date_end (fun v => sqlLtOpt v m.date_end)
    ++ triPiece q.is_human m.is_human
    ++ triPiece q.is_valid m.is_valid
    ++ piece q.min_date_added (fun v => sqlGeInt v m.date_added)
    ++ piece q.max_date_added (fun v => sqlLtInt v m.date_added)
    ++ piece q.has_date_invalidated (fun b => sqlHas b m.date_invalidated.isSome)
    ++ piece q.min_date_invalidated (fun v => sqlGeOpt v m.date_invalidated)
    ++ piece q.max_date_invalidated (fun v => sqlLtOpt v m.date_invalidated)
    ++ piece q.has_parent_id (fun b => sqlHas b m.parent_id.isSome)

/-- A WHERE clause keeps a row exactly when every ANDed condition is TRUE
(three-valued AND drops rows with FALSE or NULL conjuncts). -/
def keepRow (q : Query) (ntags nexcl : Option (List String))
    (cp ecp : Option (List (String × Json)))
    (m : MessageRow) (j : Option JiraRow) : Bool :=
  (conds q ntags nexcl cp ecp m j).all fun c => c == some true

/-- The message table LEFT-OUTER-joined with `jira_fields` on
`jira_fields.message_id = message.id`. -/
def joinedRows (db : DB) : List (MessageRow × Option JiraRow) :=
  db.messages.map fun m => (m, db.jira.find? fun j => j.message_id == some m.id)

/-- Normalize an optional tag-list query parameter. -/
def normalizeOptTags :
    Option (List String) → Except ApiError (Option (List String))
  | none => .ok none
  | some ts => ((normalizeTags ts).mapError ApiError.badRequest).map some

/-- Embedding of `find_messages` without `LIMIT`/`OFFSET`: process
`order_by`, normalize `tags`/`exclude_tags`, evaluate the two path
parameters, filter the joined rows and sort them. -/
def findCore (q : Query) (db : DB) :
    Except ApiError (List (MessageRow × Option JiraRow)) :=
  match orderKeys q.order_by with
  | .error e => .error e
  | .ok keys =>
  match normalizeOptTags q.tags with
  | .error e => .error e
  | .ok ntags =>
  match normalizeOptTags q.exclude_tags with
  | .error e => .error e
  | .ok nexcl =>
  match evalPathParam "components_path" q.components_path with
  | .error e => .error e
  | .ok cp =>
  match evalPathParam "exclude_components_path" q.exclude_components_path with
  | .error e => .error e
  | .ok ecp =>
  let rows := (joinedRows db).filter fun rj => keepRow q ntags nexcl cp ecp rj.1 rj.2
  .ok (sortLe (rowLe keys) rows)

/-- Embedding of `find_messages`: the sorted filtered rows with `OFFSET`
and `LIMIT` applied. -/
def findMessages (q : Query) (db : DB) :
    Except ApiError (List (MessageRow × Option JiraRow)) :=
  (findCore q db).map fun l => (l.drop q.offset).take q.limit

/-! ### Operation sequences (for the reachable-state invariant) -/

/-- One API write operation, with the UUIDs and timestamp it draws. -/
inductive Op where
  | add (f : AddFields) (newMessageId newJiraId : String) (now : Int) : Op
  | edit (id : String) (p : EditFields) (newMessageId newJiraId : String)
      (now : Int) : Op
  | del (id : String) (now : Int) : Op

/-- Apply one operation; a failed request leaves the store unchanged
(single-transaction semantics). -/
def applyOp (s : ServerState) (db : DB) : Op → DB
  | .add f mid jid now =>
    match addMessage s f mid jid now db with
    | .ok (_, db') => db'
    | .error _ => db
  | .edit id p mid jid now =>
    match editMessage s id p mid jid now db with
    | .ok (_, _, db') => db'
    | .error _ => db
  | .del id now =>
    match deleteMessage id now db with
    | .ok db' => db'
    | .error _ => db

/-- Run a sequence of operations from the empty store. -/
def runOps (s : ServerState) (ops : List Op) : DB :=
  ops.foldl (applyOp s) emptyDB

/-- The generated-column invariant: `is_valid` is the negation of
"`date_invalidated` is set" on every message row. -/
def MessagesValid (db : DB) : Prop :=
  ∀ r ∈ db.messages, r.is_valid = r.date_invalidated.isNone

theorem insertMessage_valid {db : DB} {r : MessageRow} (h : MessagesValid db) :
    MessagesValid (db.insertMessage r) := by
  intro x hx
  simp only [DB.insertMessage, List.mem_append, List.mem_singleton] at hx
  rcases hx with hx | hx
  · exact h x hx
  · subst hx; rfl

theorem insertJira_valid {db : DB} {j : JiraRow} (h : MessagesValid db) :
    MessagesValid (db.insertJira j) := by
  intro x hx
  exact h x hx

theorem updateDateInvalidated_valid {db : DB} {id : String}
    {f : Option Int → Option Int} (h : MessagesValid db) :
    MessagesValid (db.updateDateInvalidated id f) := by
  intro x hx
  simp only [DB.updateDateInvalidated, List.mem_map] at hx
  obtain ⟨a, ha, hax⟩ := hx
  cases hid : a.id == id <;> simp [hid] at hax <;> subst hax
  · exact h a ha
  · rfl

theorem addMessage_valid {s : ServerState} {f : AddFields}
    {a b : String} {n : Int} {db : DB} {r : MessageRow} {db' : DB}
    (h : addMessage s f a b n db = .ok (r, db')) (hv : MessagesValid db) :
    MessagesValid db' := by
  unfold addMessage at h
  cases hn : normalizeTags f.tags with
  | error e => rw [hn] at h; exact absurd h (by simp)
  | ok ts =>
    rw [hn] at h
    simp only [Except.ok.injEq, Prod.mk.injEq] at h
    obtain ⟨-, hdb⟩ := h
    subst hdb
    split
    · exact insertJira_valid (insertMessage_valid hv)
    · exact insertMessage_valid hv

theorem editMessage_valid {s : ServerState} {id : String} {p : EditFields}
    {a b : String} {n : Int} {db : DB} {r : MessageRow} {j : JiraRow}
    {db' : DB}
    (h : editMessage s id p a b n db = .ok (r, j, db')) (hv : MessagesValid db) :
    MessagesValid db' := by
  unfold editMessage at h
  cases ht : (match p.tags with
    | none => Except.ok none
    | some ts => ((normalizeTags ts).mapError ApiError.badRequest).map some :
      Except ApiError (Option (List String))) with
  | error e => rw [ht] at h; exact absurd h (by simp)
  | ok t =>
    rw [ht] at h
    cases hfind : db.messages.find? (fun r => r.id == id) with
    | none => rw [hfind] at h; exact absurd h (by simp)
    | some parent =>
      rw [hfind] at h
      simp only at h
      cases hpj : (match parent.jira_fields_id with
          | none => none
          | some jid => db.jira.find? fun j => j.id == jid : Option JiraRow) with
      | none => rw [hpj] at h; exact absurd h (by simp)
      | some pj =>
        rw [hpj] at h
        simp only [Except.ok.injEq, Prod.mk.injEq] at h
        obtain ⟨-, -, hdb⟩ := h
        subst hdb
        exact updateDateInvalidated_valid
          (insertMessage_valid (insertJira_valid hv))

theorem deleteMessage_valid {id : String} {n : Int} {db db' : DB}
    (h : deleteMessage id n db = .ok db') (hv : MessagesValid db) :
    MessagesValid db' := by
  unfold deleteMessage at h
  dsimp only at h
  split at h
  · exact absurd h (by simp)
  · obtain rfl : db.updateDateInvalidated id (fun old => some (old.getD n)) = db' := by
      simpa using h
    exact updateDateInvalidated_valid hv

theorem applyOp_valid (s : ServerState) (db : DB) (op : Op)
    (hv : MessagesValid db) : MessagesValid (applyOp s db op) := by
  cases op with
  | add f mid jid now =>
    simp only [applyOp]
    cases h : addMessage s f mid jid now db with
    | ok v =>
      obtain ⟨r, db2⟩ := v
      exact addMessage_valid h hv
    | error e => exact hv
  | edit id p mid jid now =>
    simp only [applyOp]
    cases h : editMessage s id p mid jid now db with
    | ok v =>
      obtain ⟨r, j, db2⟩ := v
      exact editMessage_valid h hv
    | error e => exact hv
  | del id now =>
    simp only [applyOp]
    cases h : deleteMessage id now db with
    | ok db2 => exact deleteMessage_valid h hv
    | error e => exact hv

theorem foldl_applyOp_valid (s : ServerState) (ops : List Op) :
    ∀ db : DB, MessagesValid db → MessagesValid (ops.foldl (applyOp s) db) := by
  induction ops with
  | nil => exact fun db h => h
  | cons op rest ih =>
    intro db h
    exact ih (applyOp s db op) (applyOp_valid s db op h)

/-! ### Example fixtures -/

/-- A server configured with SITE_ID `"summit"`. -/
def exState : ServerState := ⟨"summit"⟩

/-- An add request supplying only the required fields (no taxonomy). -/
def exAdd : AddFields :=
  { message_text := "weather hold", level := 20, user_id := "operator",
    user_agent := "LOVE", is_human := true }

/-- The message row stored for `exAdd` with id `"m1"` at time 100. -/
def exAddedRow : MessageRow :=
  { id := "m1", site_id := "summit", message_text := "weather hold",
    level := 20, tags := [], urls := [], time_lost := 0, date_begin := none,
    user_id := "operator", user_agent := "LOVE", is_human := true,
    is_valid := true, date_added := 100, date_invalidated := none,
    parent_id := none, systems := none, subsystems := none, cscs := none,
    date_end := none, category := none, time_lost_type := none,
    jira_fields_id := none }

/-- A parent message created at another site (`"base"`), with a jira row. -/
def exParent : MessageRow :=
  { id := "p1", site_id := "base", message_text := "orig", level := 30,
    tags := ["alpha"], urls := ["u1"], time_lost := 7, date_begin := some 1,
    user_id := "u0", user_agent := "a0", is_human := false, is_valid := true,
    date_added := 10, date_invalidated := none, parent_id := none,
    systems := some ["sysA"], subsystems := none, cscs := none,
    date_end := some 2, category := some "cat",
    time_lost_type := some "fault", jira_fields_id := some "j1" }

/-- The jira_fields row of `exParent`. -/
def exParentJira : JiraRow :=
  ⟨"j1", some ["compA"], none, none,
    some (Json.obj [("systems", Json.arr [Json.str "AuxTel"])]), some "p1"⟩

/-- A store holding `exParent` and its jira row. -/
def exEditDB : DB := ⟨[exParent], [exParentJira]⟩

/-- The child row produced by `edit("p1", {})` on `exEditDB` at the
`"summit"` server, with fresh ids `"c1"`/`"j2"` at time 200. -/
def exChildRow : MessageRow :=
  { exParent with
    id := "c1"
    site_id := "summit"
    date_added := 200
    parent_id := some "p1"
    jira_fields_id := some "j2"
    date_invalidated := none
    is_valid := true }

/-- The jira_fields copy created for `exChildRow`. -/
def exChildJira : JiraRow := { exParentJira with id := "j2" }

/-- The store after the edit: the parent invalidated at 200, the child and
the jira copy appended. -/
def exEditDBAfter : DB :=
  ⟨[{ exParent with date_invalidated := some 200, is_valid := false },
    exChildRow],
   [exParentJira, exChildJira]⟩

/-! ### Claim theorems -/

/-- C9: `normalize(tags)` fails with a 400 validation error listing every
offending tag in sorted order (and performs no normalization) exactly when
some tag fails the regex `^[A-Za-z][A-Za-z0-9_]+$` (Python `re.match`
semantics); when every tag matches it returns all tags lowercased in the
original order. -/
theorem normalizeTags_spec (tags : List String) :
    ((∃ t ∈ tags, validTag t = false) →
      normalizeTags tags =
        .error (sortStrings (tags.filter fun t => !validTag t))) ∧
    ((∀ t ∈ tags, validTag t = true) →
      normalizeTags tags = .ok (tags.map strLower)) := by
  constructor
  · rintro ⟨t, ht, hv⟩
    have hne : (tags.filter fun t => !validTag t).isEmpty = false := by
      rw [List.isEmpty_eq_false]
      intro hnil
      have := List.filter_eq_nil_iff.mp hnil t ht
      simp [hv] at this
    simp [normalizeTags, hne]
  · intro h
    have he : (tags.filter fun t => !validTag t).isEmpty = true := by
      rw [List.isEmpty_iff]
      exact List.filter_eq_nil_iff.mpr fun a ha => by simp [h a ha]
    simp [normalizeTags, he]

theorem normalizeTags_spec_witness :
    normalizeTags ["ok_tag", "Bad tag"] =
      .error (sortStrings (["ok_tag", "Bad tag"].filter fun t => !validTag t)) ∧
    normalizeTags ["Ok_Tag"] = .ok (["Ok_Tag"].map strLower) :=
  ⟨(normalizeTags_spec ["ok_tag", "Bad tag"]).1
      ⟨"Bad tag", by decide, by decide⟩,
   (normalizeTags_spec ["Ok_Tag"]).2 (by decide)⟩

/-- C4: every message row reachable from the empty store by any sequence of
add, edit and delete operations satisfies
`is_valid = (date_invalidated is null)`.  `is_valid` is the generated
column of `create_tables.py`, recomputed by the store on every INSERT and
UPDATE; the routers never assign it — edit and delete only ever write
`date_invalidated`. -/
theorem reachable_is_valid_generated (s : ServerState) (ops : List Op)
    (r : MessageRow) (hr : r ∈ (runOps s ops).messages) :
    r.is_valid = r.date_invalidated.isNone :=
  foldl_applyOp_valid s ops emptyDB
    (fun x hx => absurd hx (List.not_mem_nil x)) r hr

theorem reachable_is_valid_generated_witness :
    exAddedRow ∈ (runOps exState [Op.add exAdd "m1" "j1" 100]).messages ∧
    exAddedRow.is_valid = exAddedRow.date_invalidated.isNone :=
  ⟨by decide,
   reachable_is_valid_generated exState [Op.add exAdd "m1" "j1" 100]
     exAddedRow (by decide)⟩

/-- Applying the coalesce update twice changes nothing the second time. -/
theorem updateDateInvalidated_coalesce_idem (db : DB) (id : String)
    (t1 t2 : Int) :
    (db.updateDateInvalidated id fun old => some (old.getD t1)).updateDateInvalidated
        id (fun old => some (old.getD t2)) =
      db.updateDateInvalidated id fun old => some (old.getD t1) := by
  obtain ⟨msgs, jira⟩ := db
  unfold DB.updateDateInvalidated
  simp only [List.map_map, DB.mk.injEq, and_true]
  refine List.map_congr_left fun r _ => ?_
  cases hc : r.id == id with
  | true => simp [Function.comp, computeValid, hc]
  | false => simp [Function.comp, hc]

/-- C5: `delete(id)` sets `date_invalidated` to now exactly when it is
currently null and leaves it unchanged otherwise (`coalesce`); a second
delete of the same id returns success and leaves the store — in particular
`date_invalidated` — untouched; 404 is returned exactly when no row with
that id exists at all (an already-invalid row still succeeds). -/
theorem deleteMessage_spec (db : DB) (id : String) (t1 t2 : Int) :
    (deleteMessage id t1 db = .error .notFound ↔
      ∀ r ∈ db.messages, r.id ≠ id) ∧
    (∀ db', deleteMessage id t1 db = .ok db' →
      (db'.messages = db.messages.map fun r =>
        if r.id == id then
          computeValid
            { r with date_invalidated := some (r.date_invalidated.getD t1) }
        else r) ∧
      deleteMessage id t2 db' = .ok db') := by
  by_cases hc : (db.messages.filter fun r => r.id == id).length = 0
  · have hnil : ∀ r ∈ db.messages, r.id ≠ id := by
      intro r hr he
      have : r ∈ db.messages.filter fun r => r.id == id :=
        List.mem_filter.mpr ⟨hr, by simp [he]⟩
      rw [List.length_eq_zero.mp hc] at this
      exact absurd this (List.not_mem_nil r)
    have hdel : deleteMessage id t1 db = .error .notFound := by
      simp [deleteMessage, hc]
    constructor
    · exact ⟨fun _ => hnil, fun _ => hdel⟩
    · intro db' h
      rw [hdel] at h
      exact absurd h (by simp)
  · have hupd : deleteMessage id t1 db =
        .ok (db.updateDateInvalidated id fun old => some (old.getD t1)) := by
      simp [deleteMessage, hc]
    constructor
    · rw [hupd]
      simp only [reduceCtorEq, false_iff]
      intro hall
      apply hc
      rw [List.length_eq_zero]
      exact List.filter_eq_nil_iff.mpr fun r hr => by simp [hall r hr]
    · intro db' h
      rw [hupd] at h
      obtain rfl : db.updateDateInvalidated id (fun old => some (old.getD t1)) = db' := by
        simpa using h
      refine ⟨by simp [DB.updateDateInvalidated], ?_⟩
      have hcount : ((db.updateDateInvalidated id fun old =>
          some (old.getD t1)).messages.filter fun r => r.id == id).length ≠ 0 := by
        obtain ⟨r, hr⟩ := List.exists_mem_of_length_pos (Nat.pos_of_ne_zero hc)
        have hrmem := (List.mem_filter.mp hr).1
        have hrid := (List.mem_filter.mp hr).2
        have hmem2 : computeValid
            { r with date_invalidated := some (r.date_invalidated.getD t1) } ∈
            (db.updateDateInvalidated id fun old => some (old.getD t1)).messages := by
          simp only [DB.updateDateInvalidated, List.mem_map]
          exact ⟨r, hrmem, by simp [hrid]⟩
        have : computeValid
            { r with date_invalidated := some (r.date_invalidated.getD t1) } ∈
            ((db.updateDateInvalidated id fun old =>
              some (old.getD t1)).messages.filter fun r => r.id == id) := by
          refine List.mem_filter.mpr ⟨hmem2, ?_⟩
          simpa [computeValid] using hrid
        intro hzero
        rw [List.length_eq_zero.mp hzero] at this
        exact absurd this (List.not_mem_nil _)
      simp [deleteMessage, hcount, updateDateInvalidated_coalesce_idem]

theorem deleteMessage_spec_witness :
    (deleteMessage "zz" 5 exEditDB = .error .notFound ↔
      ∀ r ∈ exEditDB.messages, r.id ≠ "zz") ∧
    ((deleteMessage "p1" 5 exEditDB).map (fun d => d.messages.map
        fun r => (r.id, r.date_invalidated, r.is_valid)) =
      .ok [("p1", some 5, false)]) ∧
    deleteMessage "p1" 9
        (exEditDB.updateDateInvalidated "p1" fun old => some (old.getD 5)) =
      .ok (exEditDB.updateDateInvalidated "p1" fun old => some (old.getD 5)) :=
  ⟨(deleteMessage_spec exEditDB "zz" 5 9).1, rfl,
   ((deleteMessage_spec exEditDB "p1" 5 9).2
      (exEditDB.updateDateInvalidated "p1" fun old => some (old.getD 5))
      (by rfl)).2⟩

/-- C10: every message row created by add, and every child row created by
edit, stores the server's configured SITE_ID as its `site_id` — regardless
of the parent row's `site_id` and of any `site_id` supplied in the PATCH
body (the handler overwrites it with `state.site_id` just before the
INSERT). -/
theorem site_id_always_server (s : ServerState) :
    (∀ (f : AddFields) (mid jid : String) (now : Int) (db : DB)
        (row : MessageRow) (db' : DB),
        addMessage s f mid jid now db = .ok (row, db') →
        row.site_id = s.site_id) ∧
    (∀ (id : String) (p : EditFields) (mid jid : String) (now : Int)
        (db : DB) (child : MessageRow) (cj : JiraRow) (db' : DB),
        editMessage s id p mid jid now db = .ok (child, cj, db') →
        child.site_id = s.site_id) := by
  constructor
  · intro f mid jid now db row db' h
    unfold addMessage at h
    cases hn : normalizeTags f.tags with
    | error e => rw [hn] at h; exact absurd h (by simp)
    | ok ts =>
      rw [hn] at h
      simp only [Except.ok.injEq, Prod.mk.injEq] at h
      obtain ⟨hrow, -⟩ := h
      rw [← hrow]
      rfl
  · intro id p mid jid now db child cj db' h
    unfold editMessage at h
    cases ht : (match p.tags with
      | none => Except.ok none
      | some ts => ((normalizeTags ts).mapError ApiError.badRequest).map some :
        Except ApiError (Option (List String))) with
    | error e => rw [ht] at h; exact absurd h (by simp)
    | ok t =>
      rw [ht] at h
      cases hfind : db.messages.find? (fun r => r.id == id) with
      | none => rw [hfind] at h; exact absurd h (by simp)
      | some parent =>
        rw [hfind] at h
        simp only at h
        cases hpj : (match parent.jira_fields_id with
            | none => none
            | some jid => db.jira.find? fun j => j.id == jid : Option JiraRow) with
        | none => rw [hpj] at h; exact absurd h (by simp)
        | some pj =>
          rw [hpj] at h
          simp only [Except.ok.injEq, Prod.mk.injEq] at h
          obtain ⟨hchild, -, -⟩ := h
          rw [← hchild]
          rfl

theorem site_id_always_server_witness :
    exAddedRow.site_id = exState.site_id ∧
    exChildRow.site_id = exState.site_id :=
  ⟨(site_id_always_server exState).1 exAdd "m1" "j1" 100 emptyDB exAddedRow
      (DB.insertMessage emptyDB exAddedRow) (by rfl),
   (site_id_always_server exState).2 "p1" emptyEdit "c1" "j2" 200 exEditDB
      exChildRow exChildJira exEditDBAfter (by rfl)⟩

/-- C1 (amended): when the parent row and its jira_fields row exist,
`edit(id, partial)` creates a child that retains the parent's value for
every field absent from the partial update — except `site_id`, which is
forced to the server's configured SITE_ID, and `jira_fields_id`, which
points at a fresh copy of the parent's jira_fields row.  The child always
differs from the parent in `id`, `parent_id`, `date_added`,
`date_invalidated`/`is_valid`; the non-editable fields `date_end`,
`category`, `time_lost_type` and the jira `components_json` are always
retained. -/
theorem edit_partial_retains_parent_fields
    (s : ServerState) (id : String) (p : EditFields) (mid jid : String)
    (now : Int) (db : DB) (parent : MessageRow) (pj : JiraRow) (jpid : String)
    (child : MessageRow) (cj : JiraRow) (db' : DB)
    (hfind : db.messages.find? (fun r => r.id == id) = some parent)
    (hjid : parent.jira_fields_id = some jpid)
    (hpj : db.jira.find? (fun j => j.id == jpid) = some pj)
    (h : editMessage s id p mid jid now db = .ok (child, cj, db')) :
    (p.message_text = none → child.message_text = parent.message_text) ∧
    (p.level = none → child.level = parent.level) ∧
    (p.tags = none → child.tags = parent.tags) ∧
    (p.urls = none → child.urls = parent.urls) ∧
    (p.time_lost = none → child.time_lost = parent.time_lost) ∧
    (p.date_begin = none → child.date_begin = parent.date_begin) ∧
    (p.user_id = none → child.user_id = parent.user_id) ∧
    (p.user_agent = none → child.user_agent = parent.user_agent) ∧
    (p.is_human = none → child.is_human = parent.is_human) ∧
    (p.systems = none → child.systems = parent.systems) ∧
    (p.subsystems = none → child.subsystems = parent.subsystems) ∧
    (p.cscs = none → child.cscs = parent.cscs) ∧
    child.date_end = parent.date_end ∧
    child.category = parent.category ∧
    child.time_lost_type = parent.time_lost_type ∧
    child.site_id = s.site_id ∧
    child.id = mid ∧
    child.parent_id = some id ∧
    child.date_added = now ∧
    child.date_invalidated = none ∧
    child.is_valid = true ∧
    child.jira_fields_id = some jid ∧
    (p.components = none → cj.components = pj.components) ∧
    (p.primary_software_components = none →
      cj.primary_software_components = pj.primary_software_components) ∧
    (p.primary_hardware_components = none →
      cj.primary_hardware_components = pj.primary_hardware_components) ∧
    cj.components_json = pj.components_json := by
  unfold editMessage at h
  cases hp : p.tags with
  | none =>
    rw [hp] at h
    simp only at h
    rw [hfind] at h
    simp only at h
    rw [hjid] at h
    simp only at h
    rw [hpj] at h
    simp only [Except.ok.injEq, Prod.mk.injEq] at h
    obtain ⟨hchild, hcj, -⟩ := h
    rw [← hchild, ← hcj]
    refine ⟨?_, ?_, ?_, ?_, ?_, ?_, ?_, ?_, ?_, ?_, ?_, ?_, ?_, ?_, ?_, ?_,
      ?_, ?_, ?_, ?_, ?_, ?_, ?_, ?_, ?_, ?_⟩ <;>
      try (intro h0; simp [computeValid, h0])
    all_goals simp [computeValid]
  | some ts =>
    rw [hp] at h
    simp only at h
    cases hn : normalizeTags ts with
    | error e =>
      rw [hn] at h
      simp only [Except.mapError, Except.map] at h
      exact absurd h (by simp)
    | ok ts2 =>
      rw [hn] at h
      simp only [Except.mapError, Except.map] at h
      rw [hfind] at h
      simp only at h
      rw [hjid] at h
      simp only at h
      rw [hpj] at h
      simp only [Except.ok.injEq, Prod.mk.injEq] at h
      obtain ⟨hchild, hcj, -⟩ := h
      rw [← hchild, ← hcj]
      refine ⟨?_, ?_, ?tg, ?_, ?_, ?_, ?_, ?_, ?_, ?_, ?_, ?_, ?_, ?_, ?_, ?_,
        ?_, ?_, ?_, ?_, ?_, ?_, ?_, ?_, ?_, ?_⟩
      case tg => intro h0; exact absurd h0 (by simp)
      all_goals try (intro h0; simp [computeValid, h0])
      all_goals simp [computeValid]

theorem edit_partial_retains_parent_fields_witness :
    exChildRow.message_text = exParent.message_text ∧
    exChildRow.date_end = exParent.date_end ∧
    exChildRow.site_id = exState.site_id ∧
    exChildJira.components = exParentJira.components ∧
    exChildJira.components_json = exParentJira.components_json := by
  obtain ⟨h1, -, -, -, -, -, -, -, -, -, -, -, h13, -, -, h16, -, -, -, -, -,
      -, h23, -, -, h26⟩ :=
    edit_partial_retains_parent_fields exState "p1" emptyEdit "c1" "j2" 200
      exEditDB exParent exParentJira "j1" exChildRow exChildJira exEditDBAfter
      (by rfl) (by rfl) (by rfl) (by rfl)
  exact ⟨h1 rfl, h13, h16, h23 rfl, h26⟩

/-- C1 (counterexample to the claim as stated): editing `"p1"` with an empty
body on a server whose SITE_ID is `"summit"` succeeds, but the child's
`site_id` is `"summit"` while the parent's is `"base"` — `site_id` is not
among the five fields the claim allows to change, so the child is not
identical to the parent outside that list. -/
theorem edit_empty_partial_counterexample :
    (editMessage exState "p1" emptyEdit "c1" "j2" 200 exEditDB).map
        (fun t => t.1.site_id) = .ok "summit" ∧
    exParent.site_id = "base" ∧ ("summit" : String) ≠ "base" :=
  ⟨rfl, rfl, by decide⟩

/-- C2 (code bug): adding a message that supplies none of the four taxonomy
fields succeeds and stores the row under id `"m1"`, yet `get("m1")` on the
resulting store returns 404: `get_message` inner-joins `message` with
`jira_fields`, and no `jira_fields` row exists for such a message. -/
theorem get_after_add_404 :
    (addMessage exState exAdd "m1" "j1" 100 emptyDB).map
        (fun pr => pr.1.id) = .ok "m1" ∧
    (addMessage exState exAdd "m1" "j1" 100 emptyDB).map
        (fun pr => getMessage "m1" pr.2) = .ok (.error .notFound) ∧
    exAdd.components = none ∧
    exAdd.primary_software_components = none ∧
    exAdd.primary_hardware_components = none ∧
    exAdd.components_json = none :=
  ⟨rfl, rfl, rfl, rfl, rfl, rfl⟩

/-- A valid message with a jira row whose `components_json` defines the
`"subsystems"` key. -/
def exFindRow : MessageRow :=
  { exAddedRow with id := "f1", jira_fields_id := some "jf1" }

/-- The jira_fields row of `exFindRow`. -/
def exFindJira : JiraRow :=
  ⟨"jf1", none, none, none,
    some (Json.obj [("subsystems", Json.arr [Json.str "TMA"])]), some "f1"⟩

/-- A store holding `exFindRow` and its jira row. -/
def exFindDB : DB := ⟨[exFindRow], [exFindJira]⟩

/-- C3 (code bug): with no filter the valid message `"f1"` — whose
`components_json` defines the `"subsystems"` key — is returned, but
filtering with `components_path` equal to the object mapping
`"subsystems"` to the empty list returns no rows: the empty-list key is
skipped, so the source builds an empty `or_()`, which compiles to FALSE
and matches nothing, contradicting the parameter's own documentation
("will include all messages that have at least the subsystems key
defined"). -/
theorem components_path_empty_list_matches_nothing :
    findMessages defaultQuery exFindDB = .ok [(exFindRow, some exFindJira)] ∧
    exFindJira.components_json =
      some (Json.obj [("subsystems", Json.arr [Json.str "TMA"])]) ∧
    findMessages
        { defaultQuery with
          components_path := some (.ok (Json.obj [("subsystems", Json.arr [])])) }
        exFindDB =
      .ok [] :=
  ⟨rfl, rfl, rfl⟩

/-! ### Sorting and pagination lemmas -/

theorem mem_insertLe {le : α → α → Bool} {a x : α} {l : List α} :
    x ∈ insertLe le a l ↔ x = a ∨ x ∈ l := by
  induction l with
  | nil => simp [insertLe]
  | cons b t ih =>
    unfold insertLe
    split
    · simp
    · simp only [List.mem_cons, ih]
      tauto

theorem insertLe_pairwise {le : α → α → Bool}
    (htot : ∀ a b, le a b || le b a)
    (htrans : ∀ a b c, le a b = true → le b c = true → le a c = true)
    (a : α) (l : List α) (hl : l.Pairwise fun x y => le x y = true) :
    (insertLe le a l).Pairwise fun x y => le x y = true := by
  induction l with
  | nil => simp [insertLe]
  | cons b t ih =>
    unfold insertLe
    split
    case isTrue hab =>
      refine List.Pairwise.cons ?_ hl
      intro y hy
      rcases List.mem_cons.mp hy with rfl | hy
      · exact hab
      · exact htrans a b y hab ((List.pairwise_cons.mp hl).1 y hy)
    case isFalse hab =>
      have hba : le b a = true := by
        have := htot a b
        simp [Bool.eq_false_iff.mpr hab] at this
        exact this
      obtain ⟨hbt, ht⟩ := List.pairwise_cons.mp hl
      refine List.Pairwise.cons ?_ (ih ht)
      intro y hy
      rcases mem_insertLe.mp hy with rfl | hy
      · exact hba
      · exact hbt y hy

theorem sortLe_pairwise {le : α → α → Bool}
    (htot : ∀ a b, le a b || le b a)
    (htrans : ∀ a b c, le a b = true → le b c = true → le a c = true)
    (l : List α) :
    (sortLe le l).Pairwise fun x y => le x y = true := by
  induction l with
  | nil => simp [sortLe]
  | cons a t ih => exact insertLe_pairwise htot htrans a (sortLe le t) ih

theorem take_pages (l : List α) (L : Nat) (n : Nat) :
    (List.range n).flatMap (fun i => (l.drop (i * L)).take L) =
      l.take (n * L) := by
  induction n with
  | zero => simp
  | succ k ih =>
    rw [List.range_succ, List.flatMap_append, ih]
    simp only [List.flatMap_cons, List.flatMap_nil, List.append_nil]
    rw [Nat.succ_mul, List.take_add]

theorem pages_concat (l : List α) (L n : Nat) (hlen : l.length ≤ n * L) :
    (List.range n).flatMap (fun i => (l.drop (i * L)).take L) = l := by
  rw [take_pages]
  exact List.take_of_length_le hlen

theorem mem_dedupStr {x : String} {seen l : List String} (hx : x ∈ l)
    (hs : x ∉ seen) : x ∈ dedupStr seen l := by
  induction l generalizing seen with
  | nil => exact absurd hx (List.not_mem_nil x)
  | cons a t ih =>
    unfold dedupStr
    cases hc : seen.contains a with
    | true =>
      simp only [hc, if_true]
      rcases List.mem_cons.mp hx with rfl | hx2
      · exact absurd (by simpa using hc) hs
      · exact ih hx2 hs
    | false =>
      simp only [hc, Bool.false_eq_true, if_false]
      rcases List.mem_cons.mp hx with rfl | hx2
      · exact List.mem_cons_self _ _
      · by_cases hxa : x = a
        · subst hxa; exact List.mem_cons_self _ _
        · refine List.mem_cons_of_mem _ (ih hx2 ?_)
          intro hmem
          rcases List.mem_cons.mp hmem with rfl | h2
          · exact hxa rfl
          · exact hs h2

/-! ### Order-key totality lemmas -/

theorem cmpStr_eq (a b : String) : cmpStr a b = .eq → a = b := by
  intro h
  by_cases h1 : a = b
  · exact h1
  · exfalso
    unfold cmpStr at h
    rw [if_neg h1] at h
    split at h <;> simp at h

theorem cmpKey_id_eq (d : Bool) (a b : MessageRow) :
    cmpKey ("id", d) a b = .eq → a.id = b.id := by
  intro h
  unfold cmpKey cmpCol at h
  cases d with
  | true => exact cmpStr_eq _ _ h
  | false =>
    refine cmpStr_eq _ _ ?_
    simp only [Bool.false_eq_true, if_false] at h
    cases ho : cmpStr a.id b.id with
    | lt => rw [ho] at h; exact absurd h (by decide)
    | eq => rfl
    | gt => rw [ho] at h; exact absurd h (by decide)

theorem cmpKeys_eq_forall {keys : List (String × Bool)} {a b : MessageRow}
    (h : cmpKeys keys a b = .eq) : ∀ k ∈ keys, cmpKey k a b = .eq := by
  induction keys with
  | nil => simp
  | cons k ks ih =>
    intro k' hk'
    unfold cmpKeys at h
    cases hck : cmpKey k a b <;> rw [hck] at h
    · exact absurd h (by simp)
    · rcases List.mem_cons.mp hk' with rfl | hk'
      · exact hck
      · exact ih h k' hk'
    · exact absurd h (by simp)

theorem resolveAll_mem {l : List String} {keys : List (String × Bool)}
    (h : resolveAll l = .ok keys) :
    ∀ x ∈ l, ∃ y ∈ keys, resolveOrderItem x = .ok y := by
  induction l generalizing keys with
  | nil => simp
  | cons a t ih =>
    unfold resolveAll at h
    cases hra : resolveOrderItem a <;> rw [hra] at h
    · exact absurd h (by simp)
    · cases hrt : resolveAll t <;> rw [hrt] at h
      · exact absurd h (by simp)
      · simp only [Except.ok.injEq] at h
        subst h
        intro x hx
        rcases List.mem_cons.mp hx with rfl | hx
        · exact ⟨_, List.mem_cons_self _ _, hra⟩
        · obtain ⟨y, hy, hres⟩ := ih hrt x hx
          exact ⟨y, List.mem_cons_of_mem _ hy, hres⟩

theorem orderKeys_has_id {ob : Option (List String)}
    {keys : List (String × Bool)} (h : orderKeys ob = .ok keys) :
    ∃ d, ("id", d) ∈ keys := by
  cases ob with
  | none =>
    obtain rfl : [(("id" : String), true)] = keys := by
      injection
        ((show orderKeys none = Except.ok [("id", true)] from rfl).symm.trans h)
    exact ⟨true, List.mem_singleton.mpr rfl⟩
  | some l =>
    simp only [orderKeys] at h
    split at h
    · exact absurd h (by simp)
    · by_cases hc : (l.contains "id" || l.contains "-id") = true
      · rw [if_pos hc] at h
        rcases Bool.or_eq_true_iff.mp hc with hid | hid
        · obtain ⟨y, hy, hres⟩ :=
            resolveAll_mem h "id" (by simpa using hid)
          obtain rfl : (("id" : String), true) = y := by
            injection
              ((show resolveOrderItem "id" = Except.ok ("id", true) from
                rfl).symm.trans hres)
          exact ⟨true, hy⟩
        · obtain ⟨y, hy, hres⟩ :=
            resolveAll_mem h "-id" (by simpa using hid)
          obtain rfl : (("id" : String), false) = y := by
            injection
              ((show resolveOrderItem "-id" = Except.ok ("id", false) from
                rfl).symm.trans hres)
          exact ⟨false, hy⟩
      · rw [if_neg hc] at h
        obtain ⟨y, hy, hres⟩ :=
          resolveAll_mem h "id" (List.mem_append_right l (by simp))
        obtain rfl : (("id" : String), true) = y := by
          injection
            ((show resolveOrderItem "id" = Except.ok ("id", true) from
              rfl).symm.trans hres)
        exact ⟨true, hy⟩

/-- Extract the rows of a successful find response (errors give no rows). -/
def pageOf : Except ApiError (List α) → List α
  | .ok l => l
  | .error _ => []

theorem rowLe_id_iff (a b : MessageRow × Option JiraRow) :
    rowLe [("id", true)] a b = true ↔ a.1.id ≤ b.1.id := by
  by_cases h1 : a.1.id = b.1.id
  · simp [rowLe, cmpKeys, cmpKey, cmpCol, cmpStr, h1]
    decide
  · by_cases h2 : a.1.id < b.1.id
    · simp [rowLe, cmpKeys, cmpKey, cmpCol, cmpStr, h1, h2, le_of_lt h2]
      decide
    · have hba : b.1.id < a.1.id :=
        lt_of_le_of_ne (le_of_not_lt h2) fun he => h1 he.symm
      simp [rowLe, cmpKeys, cmpKey, cmpCol, cmpStr, h1, h2, not_le.mpr hba]
      decide

theorem rowLe_id_total (a b : MessageRow × Option JiraRow) :
    rowLe [("id", true)] a b || rowLe [("id", true)] b a := by
  rcases le_total a.1.id b.1.id with h | h <;>
    simp [Bool.or_eq_true, rowLe_id_iff, h]

theorem rowLe_id_trans (a b c : MessageRow × Option JiraRow)
    (h1 : rowLe [("id", true)] a b = true)
    (h2 : rowLe [("id", true)] b c = true) :
    rowLe [("id", true)] a c = true :=
  rowLe_id_iff a c |>.mpr
    (le_trans (rowLe_id_iff a b |>.mp h1) (rowLe_id_iff b c |>.mp h2))

/-- C6 (amended): unknown `order_by` names yield a 400 with the sorted,
deduplicated offenders; any resolved key list contains the `id` column, so
rows comparing equal have equal ids (a total order on distinct ids);
concatenating all limit/offset pages of a query reproduces the full
filtered/sorted result of that query; and with no `order_by` the result is
sorted by id ascending.  (The claim's "otherwise" branch is amended: the
four taxonomy field names pass validation but are not message-table
columns, so ordering by them raises `KeyError` — a server error, not a
400; see the counterexample.) -/
theorem find_order_by_spec :
    (∀ (q : Query) (db : DB) (l : List String),
        q.order_by = some l →
        (∃ x ∈ l, x ∉ MESSAGE_ORDER_BY_VALUES) →
        findMessages q db = .error (.badRequest
          (sortStrings (dedupStr [] (l.filter fun x =>
            !MESSAGE_ORDER_BY_VALUES.contains x))))) ∧
    (∀ (ob : Option (List String)) (keys : List (String × Bool)),
        orderKeys ob = .ok keys →
        ∀ a b : MessageRow, cmpKeys keys a b = .eq → a.id = b.id) ∧
    (∀ (q : Query) (db : DB) (full : List (MessageRow × Option JiraRow))
        (n L : Nat),
        findCore q db = .ok full → full.length ≤ n * L →
        (List.range n).flatMap (fun i =>
          pageOf (findMessages { q with offset := i * L, limit := L } db)) =
          full) ∧
    (∀ (q : Query) (db : DB) (full : List (MessageRow × Option JiraRow)),
        q.order_by = none → findCore q db = .ok full →
        full.Pairwise fun a b => a.1.id ≤ b.1.id) := by
  refine ⟨?_, ?_, ?_, ?_⟩
  · intro q db l hq hbad
    obtain ⟨x, hx, hnx⟩ := hbad
    have hbadne : (dedupStr [] (l.filter fun x =>
        !MESSAGE_ORDER_BY_VALUES.contains x)).isEmpty = false := by
      rw [List.isEmpty_eq_false]
      intro hnil
      have hxf : x ∈ dedupStr [] (l.filter fun x =>
          !MESSAGE_ORDER_BY_VALUES.contains x) :=
        mem_dedupStr (List.mem_filter.mpr ⟨hx, by simpa using hnx⟩)
          (List.not_mem_nil x)
      rw [hnil] at hxf
      exact absurd hxf (List.not_mem_nil x)
    have hkeys : orderKeys q.order_by = .error (.badRequest
        (sortStrings (dedupStr [] (l.filter fun x =>
          !MESSAGE_ORDER_BY_VALUES.contains x)))) := by
      rw [hq]
      simp only [orderKeys]
      rw [if_pos (by rw [hbadne]; rfl)]
    unfold findMessages findCore
    rw [hkeys]
    rfl
  · intro ob keys hok a b heq
    obtain ⟨d, hd⟩ := orderKeys_has_id hok
    exact cmpKey_id_eq d a b (cmpKeys_eq_forall heq _ hd)
  · intro q db full n L hcore hlen
    have hpage : ∀ i, pageOf
        (findMessages { q with offset := i * L, limit := L } db) =
        (full.drop (i * L)).take L := by
      intro i
      have hc2 : findCore { q with offset := i * L, limit := L } db =
          .ok full := hcore
      simp [findMessages, hc2, pageOf, Except.map]
    simp only [hpage]
    exact pages_concat full L n hlen
  · intro q db full hq hcore
    have horder : orderKeys q.order_by = .ok [("id", true)] := by
      rw [hq]
      rfl
    unfold findCore at hcore
    rw [horder] at hcore
    simp only at hcore
    cases h1 : normalizeOptTags q.tags with
    | error e => rw [h1] at hcore; exact absurd hcore (by simp)
    | ok ntags =>
    rw [h1] at hcore
    cases h2 : normalizeOptTags q.exclude_tags with
    | error e => rw [h2] at hcore; exact absurd hcore (by simp)
    | ok nexcl =>
    rw [h2] at hcore
    cases h3 : evalPathParam "components_path" q.components_path with
    | error e => rw [h3] at hcore; exact absurd hcore (by simp)
    | ok cp =>
    rw [h3] at hcore
    cases h4 : evalPathParam "exclude_components_path" q.exclude_components_path with
    | error e => rw [h4] at hcore; exact absurd hcore (by simp)
    | ok ecp =>
    rw [h4] at hcore
    simp only [Except.ok.injEq] at hcore
    subst hcore
    exact (sortLe_pairwise rowLe_id_total rowLe_id_trans _).imp
      fun hxy => (rowLe_id_iff _ _).mp hxy

/-- C6 (counterexample to the claim as stated): `"components"` is a
recognized `order_by` value — the call does not fail with 400 — yet it is
no message-table column, so the query fails with a server error instead of
returning pages. -/
theorem order_by_components_counterexample :
    ("components" ∈ MESSAGE_ORDER_BY_VALUES) ∧
    findMessages { defaultQuery with order_by := some ["components"] }
        exFindDB = .error .serverError :=
  ⟨by decide, by rfl⟩

theorem find_order_by_spec_witness :
    (findMessages { defaultQuery with order_by := some ["nope"] } exFindDB =
      .error (.badRequest (sortStrings (dedupStr [] (["nope"].filter fun x =>
        !MESSAGE_ORDER_BY_VALUES.contains x))))) ∧
    exFindRow.id = exFindRow.id ∧
    ((List.range 1).flatMap (fun i =>
        pageOf (findMessages
          { defaultQuery with offset := i * 2, limit := 2 } exFindDB)) =
      [(exFindRow, some exFindJira)]) ∧
    List.Pairwise (fun (a b : MessageRow × Option JiraRow) => a.1.id ≤ b.1.id)
      [(exFindRow, some exFindJira)] :=
  ⟨find_order_by_spec.1 { defaultQuery with order_by := some ["nope"] }
      exFindDB ["nope"] rfl ⟨"nope", by decide, by decide⟩,
   find_order_by_spec.2.1 (some ["level"]) [("level", true), ("id", true)]
      (by rfl) exFindRow exFindRow (by decide),
   find_order_by_spec.2.2.1 defaultQuery exFindDB
      [(exFindRow, some exFindJira)] 1 2 (by rfl) (by decide),
   find_order_by_spec.2.2.2 defaultQuery exFindDB
      [(exFindRow, some exFindJira)] rfl (by rfl)⟩

/-- C7: each `min_<field>` parameter contributes the inclusive condition
`field >= value`, each `max_<field>` the exclusive condition
`field < value`, and each `has_<field>` the condition `field IS NOT NULL`
(true) or `field IS NULL` (false).  Each family is isolated by supplying
only that parameter, with both tri-state filters set to `either` (the
`is_valid` filter, whose default is `true`, is a separate family).  On
nullable columns the SQL comparison with NULL never matches, so the
predicate is "the field has a value and that value compares". -/
theorem find_min_max_has_spec :
    (∀ (v : Int) (m : MessageRow) (j : Option JiraRow),
      keepRow { defaultQuery with is_valid := .either, min_level := some v }
        none none none none m j = true ↔ v ≤ m.level) ∧
    (∀ (v : Int) (m : MessageRow) (j : Option JiraRow),
      keepRow { defaultQuery with is_valid := .either, max_level := some v }
        none none none none m j = true ↔ m.level < v) ∧
    (∀ (v : Int) (m : MessageRow) (j : Option JiraRow),
      keepRow { defaultQuery with is_valid := .either, min_time_lost := some v }
        none none none none m j = true ↔ v ≤ m.time_lost) ∧
    (∀ (v : Int) (m : MessageRow) (j : Option JiraRow),
      keepRow { defaultQuery with is_valid := .either, max_time_lost := some v }
        none none none none m j = true ↔ m.time_lost < v) ∧
    (∀ (v : Int) (m : MessageRow) (j : Option JiraRow),
      keepRow { defaultQuery with is_valid := .either, min_date_begin := some v }
        none none none none m j = true ↔
        ∃ d, m.date_begin = some d ∧ v ≤ d) ∧
    (∀ (v : Int) (m : MessageRow) (j : Option JiraRow),
      keepRow { defaultQuery with is_valid := .either, max_date_begin := some v }
        none none none none m j = true ↔
        ∃ d, m.date_begin = some d ∧ d < v) ∧
    (∀ (v : Int) (m : MessageRow) (j : Option JiraRow),
      keepRow { defaultQuery with is_valid := .either, min_date_end := some v }
        none none none none m j = true ↔
        ∃ d, m.date_end = some d ∧ v ≤ d) ∧
    (∀ (v : Int) (m : MessageRow) (j : Option JiraRow),
      keepRow { defaultQuery with is_valid := .either, max_date_end := some v }
        none none none none m j = true ↔
        ∃ d, m.date_end = some d ∧ d < v) ∧
    (∀ (v : Int) (m : MessageRow) (j : Option JiraRow),
      keepRow { defaultQuery with is_valid := .either, min_date_added := some v }
        none none none none m j = true ↔ v ≤ m.date_added) ∧
    (∀ (v : Int) (m : MessageRow) (j : Option JiraRow),
      keepRow { defaultQuery with is_valid := .either, max_date_added := some v }
        none none none none m j = true ↔ m.date_added < v) ∧
    (∀ (v : Int) (m : MessageRow) (j : Option JiraRow),
      keepRow
        { defaultQuery with is_valid := .either, min_date_invalidated := some v }
        none none none none m j = true ↔
        ∃ d, m.date_invalidated = some d ∧ v ≤ d) ∧
    (∀ (v : Int) (m : MessageRow) (j : Option JiraRow),
      keepRow
        { defaultQuery with is_valid := .either, max_date_invalidated := some v }
        none none none none m j = true ↔
        ∃ d, m.date_invalidated = some d ∧ d < v) ∧
    (∀ (m : MessageRow) (j : Option JiraRow),
      keepRow
        { defaultQuery with is_valid := .either, has_date_begin := some true }
        none none none none m j = true ↔ m.date_begin ≠ none) ∧
    (∀ (m : MessageRow) (j : Option JiraRow),
      keepRow
        { defaultQuery with is_valid := .either, has_date_begin := some false }
        none none none none m j = true ↔ m.date_begin = none) ∧
    (∀ (m : MessageRow) (j : Option JiraRow),
      keepRow { defaultQuery with is_valid := .either, has_date_end := some true }
        none none none none m j = true ↔ m.date_end ≠ none) ∧
    (∀ (m : MessageRow) (j : Option JiraRow),
      keepRow
        { defaultQuery with is_valid := .either, has_date_end := some false }
        none none none none m j = true ↔ m.date_end = none) ∧
    (∀ (m : MessageRow) (j : Option JiraRow),
      keepRow
        { defaultQuery with is_valid := .either, has_date_invalidated := some true }
        none none none none m j = true ↔ m.date_invalidated ≠ none) ∧
    (∀ (m : MessageRow) (j : Option JiraRow),
      keepRow
        { defaultQuery with is_valid := .either, has_date_invalidated := some false }
        none none none none m j = true ↔ m.date_invalidated = none) ∧
    (∀ (m : MessageRow) (j : Option JiraRow),
      keepRow
        { defaultQuery with is_valid := .either, has_parent_id := some true }
        none none none none m j = true ↔ m.parent_id ≠ none) ∧
    (∀ (m : MessageRow) (j : Option JiraRow),
      keepRow
        { defaultQuery with is_valid := .either, has_parent_id := some false }
        none none none none m j = true ↔ m.parent_id = none) := by
  refine ⟨?_, ?_, ?_, ?_, ?_, ?_, ?_, ?_, ?_, ?_, ?_, ?_, ?_, ?_, ?_, ?_, ?_,
    ?_, ?_, ?_⟩
  · intro v m j
    simp [keepRow, conds, piece, triPiece, defaultQuery, sqlGeInt]
  · intro v m j
    simp [keepRow, conds, piece, triPiece, defaultQuery, sqlLtInt]
  · intro v m j
    simp [keepRow, conds, piece, triPiece, defaultQuery, sqlGeInt]
  · intro v m j
    simp [keepRow, conds, piece, triPiece, defaultQuery, sqlLtInt]
  · intro v m j
    cases hd : m.date_begin <;>
      simp [keepRow, conds, piece, triPiece, defaultQuery, sqlGeOpt, hd]
  · intro v m j
    cases hd : m.date_begin <;>
      simp [keepRow, conds, piece, triPiece, defaultQuery, sqlLtOpt, hd]
  · intro v m j
    cases hd : m.date_end <;>
      simp [keepRow, conds, piece, triPiece, defaultQuery, sqlGeOpt, hd]
  · intro v m j
    cases hd : m.date_end <;>
      simp [keepRow, conds, piece, triPiece, defaultQuery, sqlLtOpt, hd]
  · intro v m j
    simp [keepRow, conds, piece, triPiece, defaultQuery, sqlGeInt]
  · intro v m j
    simp [keepRow, conds, piece, triPiece, defaultQuery, sqlLtInt]
  · intro v m j
    cases hd : m.date_invalidated <;>
      simp [keepRow, conds, piece, triPiece, defaultQuery, sqlGeOpt, hd]
  · intro v m j
    cases hd : m.date_invalidated <;>
      simp [keepRow, conds, piece, triPiece, defaultQuery, sqlLtOpt, hd]
  · intro m j
    cases hd : m.date_begin <;>
      simp [keepRow, conds, piece, triPiece, defaultQuery, sqlHas, hd]
  · intro m j
    cases hd : m.date_begin <;>
      simp [keepRow, conds, piece, triPiece, defaultQuery, sqlHas, hd]
  · intro m j
    cases hd : m.date_end <;>
      simp [keepRow, conds, piece, triPiece, defaultQuery, sqlHas, hd]
  · intro m j
    cases hd : m.date_end <;>
      simp [keepRow, conds, piece, triPiece, defaultQuery, sqlHas, hd]
  · intro m j
    cases hd : m.date_invalidated <;>
      simp [keepRow, conds, piece, triPiece, defaultQuery, sqlHas, hd]
  · intro m j
    cases hd : m.date_invalidated <;>
      simp [keepRow, conds, piece, triPiece, defaultQuery, sqlHas, hd]
  · intro m j
    cases hd : m.parent_id <;>
      simp [keepRow, conds, piece, triPiece, defaultQuery, sqlHas, hd]
  · intro m j
    cases hd : m.parent_id <;>
      simp [keepRow, conds, piece, triPiece, defaultQuery, sqlHas, hd]

/-! ### Lemmas for the components_path filter -/

theorem sqlOrList_true_iff (l : List (Option Bool)) :
    sqlOrList l = some true ↔ ∃ c ∈ l, c = some true := by
  unfold sqlOrList
  by_cases h : l.any (fun c => c == some true) = true
  · simp only [h, if_true]
    refine ⟨fun _ => ?_, fun _ => by simp⟩
    obtain ⟨c, hc, hce⟩ := List.any_eq_true.mp h
    exact ⟨c, hc, by simpa using hce⟩
  · have h2 : ¬ ∃ c ∈ l, c = some true := by
      rintro ⟨c, hc, rfl⟩
      exact h (List.any_eq_true.mpr ⟨_, hc, by simp⟩)
    simp only [Bool.not_eq_true] at h
    simp only [h, Bool.false_eq_true, if_false]
    split <;> exact iff_of_false (by simp) h2

theorem sqlOrList_of_no_none (l : List (Option Bool))
    (h : ∀ c ∈ l, c ≠ none) :
    sqlOrList l = some (l.any fun c => c == some true) := by
  unfold sqlOrList
  by_cases ha : l.any (fun c => c == some true) = true
  · simp [ha]
  · have hn : l.any (fun c => c == none) = false := by
      rw [List.any_eq_false]
      intro c hc
      simpa using h c hc
    simp only [Bool.not_eq_true] at ha
    simp [ha, hn]

theorem mem_pathConditions {c : Option Bool} {pairs : List (String × Json)}
    {col : Option Json} :
    c ∈ pathConditions pairs col ↔
      ∃ p ∈ pairs, ∃ elts, p.2 = Json.arr elts ∧ elts ≠ [] ∧
        ∃ e ∈ elts, c = sqlJsonbContains (Json.obj [(p.1, Json.arr [e])]) col := by
  unfold pathConditions
  rw [List.mem_flatMap]
  constructor
  · rintro ⟨kv, hkv, hc⟩
    cases h2 : kv.2 with
    | arr elts =>
      rw [h2] at hc
      simp only at hc
      by_cases he : elts.isEmpty
      · rw [if_pos he] at hc
        simp at hc
      · rw [if_neg he] at hc
        obtain ⟨e, hee, hec⟩ := List.mem_map.mp hc
        exact ⟨kv, hkv, elts, h2, by simpa [List.isEmpty_iff] using he,
          e, hee, hec.symm⟩
    | null => rw [h2] at hc; simp at hc
    | bool b => rw [h2] at hc; simp at hc
    | num n => rw [h2] at hc; simp at hc
    | str s => rw [h2] at hc; simp at hc
    | obj o => rw [h2] at hc; simp at hc
  · rintro ⟨p, hp, elts, harr, hne, e, he, rfl⟩
    refine ⟨p, hp, ?_⟩
    rw [harr]
    simp only
    rw [if_neg (by simpa [List.isEmpty_iff] using hne)]
    exact List.mem_map.mpr ⟨e, he, rfl⟩

theorem containsRec_str (a b : String) :
    Json.containsRec (.str a) (.str b) = (a == b) := rfl

theorem jsonb_single_key_iff (R : List (String × Json)) (k s : String)
    (hR : ∀ p ∈ R, ∃ ss : List String, p.2 = Json.arr (ss.map Json.str)) :
    jsonbContains (Json.obj R) (Json.obj [(k, Json.arr [Json.str s])]) = true ↔
      ∃ rowElts, (R.find? fun q => q.1 == k).map Prod.snd =
        some (Json.arr rowElts) ∧ Json.str s ∈ rowElts := by
  have hmain : jsonbContains (Json.obj R)
      (Json.obj [(k, Json.arr [Json.str s])]) =
      (match R.find? (fun q => q.1 == k) with
        | some p => Json.containsRec p.2 (Json.arr [Json.str s])
        | none => false) := by
    show Json.containsRec _ _ = _
    rw [Json.containsRec]
    simp [Json.containsFields]
  rw [hmain]
  cases hf : R.find? (fun q => q.1 == k) with
  | none => simp
  | some p =>
    obtain ⟨ss, hss⟩ := hR p (List.mem_of_find?_eq_some hf)
    simp only [hss, Option.map_some', Option.some.injEq]
    have helts : Json.containsRec (Json.arr (ss.map Json.str))
        (Json.arr [Json.str s]) =
        ((ss.map Json.str).any fun x => Json.containsRec x (Json.str s)) := by
      rw [Json.containsRec]
      simp [Json.containsElems]
    rw [helts]
    constructor
    · intro h
      obtain ⟨x, hx, hcx⟩ := List.any_eq_true.mp h
      obtain ⟨a, ha, rfl⟩ := List.mem_map.mp hx
      rw [containsRec_str] at hcx
      obtain rfl : a = s := by simpa using hcx
      exact ⟨ss.map Json.str, rfl, List.mem_map.mpr ⟨a, ha, rfl⟩⟩
    · rintro ⟨rowElts, hre, hmem⟩
      obtain rfl : List.map Json.str ss = rowElts := by simpa using hre
      obtain ⟨a, ha, hae⟩ := List.mem_map.mp hmem
      obtain rfl : a = s := by simpa using hae
      refine List.any_eq_true.mpr
        ⟨Json.str a, List.mem_map.mpr ⟨a, ha, rfl⟩, ?_⟩
      rw [containsRec_str]
      simp

/-- Claim-side predicate, written from the claim's words: some key of the
path spec maps to a non-empty list, and the row's `components_json[key]`
array contains at least one of the listed values. -/
def claimPathMatches (spec row : List (String × Json)) : Prop :=
  ∃ p ∈ spec, ∃ elts, p.2 = Json.arr elts ∧ elts ≠ [] ∧
    ∃ e ∈ elts, ∃ rowElts,
      (row.find? fun q => q.1 == p.1).map Prod.snd = some (Json.arr rowElts) ∧
      e ∈ rowElts

/-- A message with no jira_fields row at all (NULL `components_json`). -/
def exNoJiraRow : MessageRow := { exAddedRow with id := "n1" }

/-- A store holding only `exNoJiraRow`. -/
def exNoJiraDB : DB := ⟨[exNoJiraRow], []⟩

/-- The include path spec used in examples. -/
def exPathSpec : List (String × Json) := [("subsystems", Json.arr [Json.str "TMA"])]

/-- C8 (amended): malformed JSON in `components_path` or
`exclude_components_path` yields HTTP 400; for a row whose
`components_json` is an object of string arrays, the include filter keeps
the row exactly when some key of the spec maps to a non-empty list one of
whose values occurs in the row's array under that key (OR across all
key/value pairs); an empty object keeps nothing; and on rows whose
`components_json` is non-null the exclude filter is the boolean negation
of the include filter.  (The claim's unconditional "exclude is the
negation" is amended: a row with no jira_fields row or NULL
`components_json` is dropped by BOTH filters, because `NULL @> spec` is
NULL and `NOT NULL` is NULL in SQL — see the counterexample.) -/
theorem find_components_path_spec :
    (∀ (db : DB) (e : String),
      findMessages { defaultQuery with components_path := some (.error e) } db =
        .error (.badRequest ["Invalid JSON in components_path"])) ∧
    (∀ (db : DB) (e : String),
      findMessages
          { defaultQuery with exclude_components_path := some (.error e) } db =
        .error (.badRequest ["Invalid JSON in exclude_components_path"])) ∧
    (∀ (spec : List (String × Json)) (m : MessageRow) (jr : JiraRow)
        (R : List (String × Json)),
      jr.components_json = some (Json.obj R) →
      (∀ p ∈ spec, ∀ elts, p.2 = Json.arr elts → ∀ x ∈ elts, ∃ s, x = Json.str s) →
      (∀ p ∈ R, ∃ ss : List String, p.2 = Json.arr (ss.map Json.str)) →
      (keepRow { defaultQuery with is_valid := .either } none none (some spec)
          none m (some jr) = true ↔ claimPathMatches spec R)) ∧
    (∀ (m : MessageRow) (j : Option JiraRow),
      keepRow { defaultQuery with is_valid := .either } none none (some [])
        none m j = false) ∧
    (∀ (spec : List (String × Json)) (m : MessageRow) (jr : JiraRow)
        (cj : Json),
      jr.components_json = some cj →
      keepRow { defaultQuery with is_valid := .either } none none none
          (some spec) m (some jr) =
        !keepRow { defaultQuery with is_valid := .either } none none
          (some spec) none m (some jr)) := by
  refine ⟨?_, ?_, ?_, ?_, ?_⟩
  · intro db e
    rfl
  · intro db e
    rfl
  · intro spec m jr R hcj hspec hR
    have hkeep : keepRow { defaultQuery with is_valid := .either } none none
        (some spec) none m (some jr) =
        (sqlOrList (pathConditions spec jr.components_json) == some true) := by
      simp [keepRow, conds, piece, triPiece, defaultQuery]
    rw [hkeep, hcj, beq_iff_eq, sqlOrList_true_iff]
    constructor
    · rintro ⟨c, hcmem, hctrue⟩
      obtain ⟨p, hp, elts, harr, hne, e, he, rfl⟩ := mem_pathConditions.mp hcmem
      obtain ⟨s, rfl⟩ := hspec p hp elts harr e he
      have hj : jsonbContains (Json.obj R)
          (Json.obj [(p.1, Json.arr [Json.str s])]) = true := by
        simpa [sqlJsonbContains] using hctrue
      obtain ⟨rowElts, hre, hmem⟩ := (jsonb_single_key_iff R p.1 s hR).mp hj
      exact ⟨p, hp, elts, harr, hne, Json.str s, he, rowElts, hre, hmem⟩
    · rintro ⟨p, hp, elts, harr, hne, e, he, rowElts, hre, hmem⟩
      obtain ⟨s, rfl⟩ := hspec p hp elts harr e he
      refine ⟨sqlJsonbContains (Json.obj [(p.1, Json.arr [Json.str s])])
        (some (Json.obj R)), ?_, ?_⟩
      · exact mem_pathConditions.mpr ⟨p, hp, elts, harr, hne, _, he, rfl⟩
      · have := (jsonb_single_key_iff R p.1 s hR).mpr ⟨rowElts, hre, hmem⟩
        simp [sqlJsonbContains, this]
  · intro m j
    simp [keepRow, conds, piece, triPiece, defaultQuery, pathConditions,
      sqlOrList]
  · intro spec m jr cj hcj
    have h1 : keepRow { defaultQuery with is_valid := .either } none none none
        (some spec) m (some jr) =
        (sqlNot (sqlOrList (pathConditions spec jr.components_json)) ==
          some true) := by
      simp [keepRow, conds, piece, triPiece, defaultQuery]
    have h2 : keepRow { defaultQuery with is_valid := .either } none none
        (some spec) none m (some jr) =
        (sqlOrList (pathConditions spec jr.components_json) == some true) := by
      simp [keepRow, conds, piece, triPiece, defaultQuery]
    rw [h1, h2, hcj]
    have hnn : ∀ c ∈ pathConditions spec (some cj), c ≠ none := by
      intro c hcmem
      obtain ⟨p, hp, elts, harr, hne, e, he, rfl⟩ := mem_pathConditions.mp hcmem
      simp [sqlJsonbContains]
    rw [sqlOrList_of_no_none _ hnn]
    cases (pathConditions spec (some cj)).any (fun c => c == some true) <;>
      simp [sqlNot]

/-- The exclude path spec used in the C8 counterexample. -/
def exExcludePathParam : Option (Except String Json) :=
  some (.ok (Json.obj [("systems", Json.arr [Json.str "AuxTel"])]))

/-- C8 (counterexample to the claim as stated): the valid message `"n1"`
has no jira_fields row, so its `components_json` is NULL and the claimed
OR condition is false; the claim says the exclude filter — the negation of
that OR — must return the row, but the code drops it (NULL three-valued
logic), returning no rows. -/
theorem exclude_components_path_null_counterexample :
    findMessages defaultQuery exNoJiraDB = .ok [(exNoJiraRow, none)] ∧
    findMessages
        { defaultQuery with exclude_components_path := exExcludePathParam }
        exNoJiraDB = .ok [] :=
  ⟨by rfl, by rfl⟩

theorem find_components_path_spec_witness :
    (findMessages
        { defaultQuery with components_path := some (.error "bad json") }
        exFindDB = .error (.badRequest ["Invalid JSON in components_path"])) ∧
    (findMessages
        { defaultQuery with exclude_components_path := some (.error "bad json") }
        exFindDB =
      .error (.badRequest ["Invalid JSON in exclude_components_path"])) ∧
    (keepRow { defaultQuery with is_valid := .either } none none
        (some exPathSpec) none exFindRow (some exFindJira) = true ↔
      claimPathMatches exPathSpec
        [("subsystems", Json.arr [Json.str "TMA"])]) ∧
    (keepRow { defaultQuery with is_valid := .either } none none (some [])
        none exFindRow (some exFindJira) = false) ∧
    (keepRow { defaultQuery with is_valid := .either } none none none
        (some exPathSpec) exFindRow (some exFindJira) =
      !keepRow { defaultQuery with is_valid := .either } none none
        (some exPathSpec) none exFindRow (some exFindJira)) :=
  ⟨find_components_path_spec.1 exFindDB "bad json",
   find_components_path_spec.2.1 exFindDB "bad json",
   find_components_path_spec.2.2.1 exPathSpec exFindRow exFindJira
     [("subsystems", Json.arr [Json.str "TMA"])] rfl
     (by
       intro p hp elts harr x hx
       simp only [exPathSpec, List.mem_singleton] at hp
       subst hp
       obtain rfl : ([Json.str "TMA"] : List Json) = elts := by
         simpa using harr
       simp only [List.mem_singleton] at hx
       exact ⟨"TMA", hx⟩)
     (by
       intro p hp
       simp only [List.mem_singleton] at hp
       subst hp
       exact ⟨["TMA"], rfl⟩),
   find_components_path_spec.2.2.2.1 exFindRow (some exFindJira),
   find_components_path_spec.2.2.2.2 exPathSpec exFindRow exFindJira
     (Json.obj [("subsystems", Json.arr [Json.str "TMA"])]) rfl⟩

end Narrativelog
